import Mathlib

/-!
Verification of the bounded-concurrency flag-fetch orchestrator in
`src/get_flags/asyncio_version.py`.

The functional core (URL derivation, `download_one` classification, the
`supervisor` drain loop and its counter) is embedded as pure Lean
functions; the remote side (`httpx.AsyncClient.get` plus
`raise_for_status`) is a parameter `client : String → HttpReply`.
The admission gate (`asyncio.Semaphore`) is modelled separately as a
small-step transition system, since it only constrains scheduling and
never enters the returned values.
-/

namespace GetFlags

/-- Modelled from the spec: `DownloadStatus` is the closed outcome
enumeration (OK, NOT_FOUND, ERROR) that `asyncio_version.py` imports from
the repository module `common`, which is not present under `src/`. -/
inductive DownloadStatus where
  | OK
  | NOT_FOUND
  | ERROR
deriving DecidableEq

/-- What one remote GET of a URL yields, seen through `httpx`:
a 2xx response with a body (so `resp.raise_for_status()` passes), a
non-2xx response (so `raise_for_status` raises `httpx.HTTPStatusError`
carrying the status code and the URL), or a transport-level failure
raised by `client.get` itself. For the metadata document the body
stands for the already-extracted country field. -/
inductive HttpReply where
  | success (body : String)
  | status (code : Nat)
  | transport (info : String)
deriving DecidableEq

/-- An `httpx` exception escaping a fetch stage. -/
inductive HttpxError where
  | statusError (code : Nat) (url : String)
  | transportError (info : String)
deriving DecidableEq

/-- Python `str.lower()`, character by character on the underlying
character list. -/
def lowerStr (s : String) : String :=
  ⟨s.data.map Char.toLower⟩

/-- Line 23: `url = f"{base_url}/{cc}/{cc}.gif".lower()` — the whole
interpolated string is lowercased. -/
def flagUrl (base_url cc : String) : String :=
  lowerStr (base_url ++ "/" ++ cc ++ "/" ++ cc ++ ".gif")

/-- Line 33: `url = f"{base_url}/{cc}/metadata.json".lower()`. -/
def metadataUrl (base_url cc : String) : String :=
  lowerStr (base_url ++ "/" ++ cc ++ "/metadata.json")

/-- Lines 19-26: `get_flag` — GET the flag URL, `raise_for_status`,
return the content. -/
def get_flag (client : String → HttpReply) (base_url cc : String) :
    Except HttpxError String :=
  let url := flagUrl base_url cc
  match client url with
  | .success body => .ok body
  | .status code => .error (.statusError code url)
  | .transport info => .error (.transportError info)

/-- Lines 29-37: `get_country` — GET the metadata URL,
`raise_for_status`, return the country field of the JSON document. -/
def get_country (client : String → HttpReply) (base_url cc : String) :
    Except HttpxError String :=
  let url := metadataUrl base_url cc
  match client url with
  | .success body => .ok body
  | .status code => .error (.statusError code url)
  | .transport info => .error (.transportError info)

/-- What one `download_one` invocation produced: the returned status, the
terminal message, and the persistence call that was made
(`save_flag(image, filename)`), if any. -/
structure OneResult where
  status : DownloadStatus
  msg : String
  saved : Option (String × String)
deriving DecidableEq

/-- Lines 40-78: `download_one` — stage 1 (`get_flag`), stage 2
(`get_country`), then the single `except httpx.HTTPStatusError` handler
covering both stages: a 404 becomes NOT_FOUND with the failing URL in the
message and no persistence; any other status error is re-raised by the
bare `raise`; a transport error matches no handler and propagates. On
success the country name, spaces replaced by underscores, names the
saved file. The semaphore (lines 55, 59) does not affect the returned
value and is modelled by `Step` below. -/
def download_one (client : String → HttpReply) (cc base_url : String) :
    Except HttpxError OneResult :=
  match get_flag client base_url cc with
  | .error (.statusError code url) =>
      if code = 404 then
        .ok ⟨.NOT_FOUND, "not found: " ++ url, none⟩
      else
        .error (.statusError code url)
  | .error (.transportError info) => .error (.transportError info)
  | .ok image =>
      match get_country client base_url cc with
      | .error (.statusError code url) =>
          if code = 404 then
            .ok ⟨.NOT_FOUND, "not found: " ++ url, none⟩
          else
            .error (.statusError code url)
      | .error (.transportError info) => .error (.transportError info)
      | .ok country =>
          let filename := (country.replace " " "_") ++ ".gif"
          .ok ⟨.OK, "OK", some (image, filename)⟩

/-- `Counter[DownloadStatus]` of the supervisor: one count per outcome
kind. -/
structure Counts where
  ok : Nat
  notFound : Nat
  error : Nat
deriving DecidableEq

def Counts.zero : Counts := ⟨0, 0, 0⟩

/-- `counter[status] += 1`. -/
def Counts.incr (c : Counts) : DownloadStatus → Counts
  | .OK => { c with ok := c.ok + 1 }
  | .NOT_FOUND => { c with notFound := c.notFound + 1 }
  | .ERROR => { c with error := c.error + 1 }

/-- `sum(counter.values())`. -/
def Counts.total (c : Counts) : Nat := c.ok + c.notFound + c.error

deriving instance DecidableEq for Except

/-- What `await coro` yields for one drained task: the returned
`DownloadStatus`, or the exception the task re-raised. -/
abbrev Completion := Except HttpxError DownloadStatus

/-- An exception escaping `supervisor` itself and aborting the run:
the `KeyError` raised at line 117 by
`error_msg.format(res=exc.response)` (the template at line 116 names the
field `resp`, the call passes `res`), or an exception from `await coro`
that matches no handler (the loop handles only `httpx.HTTPStatusError`
and `KeyboardInterrupt`, so transport errors propagate). -/
inductive SupFatal where
  | keyErrorResp
  | unhandled (info : String)
deriving DecidableEq

/-- Python string comparison: lexicographic on code points. -/
def charsLe : List Char → List Char → Bool
  | [], _ => true
  | _ :: _, [] => false
  | a :: as, b :: bs =>
      if a.toNat < b.toNat then true
      else if b.toNat < a.toNat then false
      else charsLe as bs

def strLe (a b : String) : Bool := charsLe a.data b.data

/-- Python `sorted` on strings (line 103): stable ascending insertion
sort by code points. -/
def insertSorted (a : String) : List String → List String
  | [] => [a]
  | b :: l => if strLe a b then a :: b :: l else b :: insertSorted a l

def sortKeys : List String → List String
  | [] => []
  | a :: l => insertSorted a (sortKeys l)

/-- Lines 101-106: the `to_do` list, one `download_one` coroutine per
occurrence of a key in `sorted(cc_list)`, each eventually yielding a
`Completion`. (`asyncio.as_completed` hands them back in an arbitrary
order; that order is a separate parameter of `supervisor`.) -/
def supervisorTasks (client : String → HttpReply) (cc_list : List String)
    (base_url : String) : List Completion :=
  (sortKeys cc_list).map fun cc => (download_one client cc base_url).map (·.status)

/-- Lines 111-131: the drain loop. `i` is the index of the completion
about to be drained; `intr = some k` means a `KeyboardInterrupt` is
delivered during the `await` of the k-th drained completion, whose
handler is `break`. `errVar` is the `error` variable initialized to
`None` at line 111; the only assignment to it (line 119) sits after the
`format` call that raises `KeyError`, so it is never reached, yet the
`if error:` reclassification (lines 123-124) is kept faithfully. The
`counter[status] += 1` line that would run after a handled exception is
unreachable for the same reason. -/
def drainFrom (intr : Option Nat) :
    Nat → List Completion → Option HttpxError → Counts → Except SupFatal Counts
  | _, [], _, counter => .ok counter
  | i, comp :: rest, errVar, counter =>
    if intr = some i then
      .ok counter
    else
      match comp with
      | .error (.statusError _ _) => .error .keyErrorResp
      | .error (.transportError info) => .error (.unhandled info)
      | .ok st =>
          let status := if errVar.isSome then DownloadStatus.ERROR else st
          drainFrom intr (i + 1) rest errVar (counter.incr status)

/-- Lines 81-133: `supervisor`. `concur_req` only sizes the semaphore at
line 97 and never enters the returned counter; the completion `order` is
whatever `asyncio.as_completed` produced (the theorems quantify over
permutations of `supervisorTasks`). The `tqdm` wrapper changes no
counts. -/
def supervisor (concur_req : Nat) (order : List Completion)
    (intr : Option Nat) : Except SupFatal Counts :=
  let _semaphore := concur_req
  drainFrom intr 0 order none Counts.zero

/-!
The admission gate. `asyncio.Semaphore(concur_req)` together with the
two `async with semaphore:` blocks of `download_one` (lines 55 and 59) is
modelled as a transition system: each task is in one of the phases
below, and the gate keeps the internal counter of the semaphore. Task
identity is irrelevant to the gate, so the task pool is a multiset of
phases and each step rewrites one occurrence.
-/

/-- Where one `download_one` coroutine stands relative to the two
`async with semaphore:` blocks. `fetching1`/`fetching2` hold the
semaphore; `between` is after the first block exits; `saving` is the
`else:` branch (persistence) after the second block exits; `done` covers
both a normal return and an exception that ended the coroutine. -/
inductive Phase where
  | start
  | fetching1
  | between
  | fetching2
  | saving
  | done
deriving DecidableEq

/-- Does this phase hold an admission-gate permit? -/
def Phase.holding : Phase → Bool
  | .fetching1 => true
  | .fetching2 => true
  | _ => false

/-- Gate-level system state: the semaphore counter and the phases of the
spawned tasks. -/
structure GState where
  avail : Nat
  tasks : Multiset Phase
deriving DecidableEq

/-- Line 97 plus the task launch: semaphore counter at `concur_req`, all
`n` tasks launched and not yet admitted. -/
def initState (concur_req n : Nat) : GState :=
  ⟨concur_req, Multiset.replicate n .start⟩

/-- One scheduler step. `acquire` fires only when the counter is
positive (`asyncio.Semaphore.acquire` blocks at zero) and decrements it;
leaving an `async with` block increments it, whether the body returned
(`finish1ok`, `finish2ok`) or raised (`finish1err`, `finish2err`) —
`__aexit__` releases on both paths. Raising ends the coroutine
(`done`); persisting the flag holds no permit. -/
inductive Step : GState → GState → Prop
  | acquire1 (a : Nat) (ts : Multiset Phase) :
      Step ⟨a + 1, .start ::ₘ ts⟩ ⟨a, .fetching1 ::ₘ ts⟩
  | finish1ok (a : Nat) (ts : Multiset Phase) :
      Step ⟨a, .fetching1 ::ₘ ts⟩ ⟨a + 1, .between ::ₘ ts⟩
  | finish1err (a : Nat) (ts : Multiset Phase) :
      Step ⟨a, .fetching1 ::ₘ ts⟩ ⟨a + 1, .done ::ₘ ts⟩
  | acquire2 (a : Nat) (ts : Multiset Phase) :
      Step ⟨a + 1, .between ::ₘ ts⟩ ⟨a, .fetching2 ::ₘ ts⟩
  | finish2ok (a : Nat) (ts : Multiset Phase) :
      Step ⟨a, .fetching2 ::ₘ ts⟩ ⟨a + 1, .saving ::ₘ ts⟩
  | finish2err (a : Nat) (ts : Multiset Phase) :
      Step ⟨a, .fetching2 ::ₘ ts⟩ ⟨a + 1, .done ::ₘ ts⟩
  | saveDone (a : Nat) (ts : Multiset Phase) :
      Step ⟨a, .saving ::ₘ ts⟩ ⟨a, .done ::ₘ ts⟩

/-- States a run with capacity `concur_req` and `n` tasks can reach. -/
inductive Reachable (concur_req n : Nat) : GState → Prop
  | init : Reachable concur_req n (initState concur_req n)
  | step {s s' : GState} : Reachable concur_req n s → Step s s' →
      Reachable concur_req n s'

/-- Number of tasks currently holding an admission-gate permit. -/
def holders (s : GState) : Nat :=
  Multiset.countP (fun p => p.holding = true) s.tasks

/-!
Auxiliary definitions used by the theorems: the claim-worded location
scheme of C6 (to be compared with the one read off the source), result
projections and completion counters, and the concrete remote behaviours
the counterexamples and witnesses evaluate.
-/

/-- The payload location exactly as claim C6 words it: only the key
component is lowercased, the base is kept as supplied. -/
def flagUrlSpec (base_url cc : String) : String :=
  base_url ++ "/" ++ lowerStr cc ++ "/" ++ lowerStr cc ++ ".gif"

/-- The metadata location exactly as claim C6 words it. -/
def metadataUrlSpec (base_url cc : String) : String :=
  base_url ++ "/" ++ lowerStr cc ++ "/metadata.json"

/-- Did `await coro` return normally (as opposed to raising)? -/
def isNormal : Completion → Bool
  | .ok _ => true
  | .error _ => false

/-- The counter the orchestration call hands back to its caller, if it
returned at all rather than raising. -/
def returnedCounts : Except SupFatal Counts → Option Counts
  | .ok c => some c
  | .error _ => none

/-- How many completions returned OK. -/
def countOK (l : List Completion) : Nat :=
  l.countP fun c => match c with | .ok .OK => true | _ => false

/-- How many completions returned NOT_FOUND. -/
def countNF (l : List Completion) : Nat :=
  l.countP fun c => match c with | .ok .NOT_FOUND => true | _ => false

/-- How many completions returned ERROR. -/
def countERR (l : List Completion) : Nat :=
  l.countP fun c => match c with | .ok .ERROR => true | _ => false

/-- A remote that answers every GET with HTTP 500. -/
def client500 : String → HttpReply := fun _ => .status 500

/-- A remote that answers every GET with HTTP 404. -/
def client404 : String → HttpReply := fun _ => .status 404

/-- A remote on which every GET succeeds. -/
def clientGood : String → HttpReply := fun _ => .success "Aruba"

/-- A remote that fails the flag fetch of key aa with HTTP 500 and
serves everything else. -/
def mixedClient : String → HttpReply := fun url =>
  if url = flagUrl "http://flags" "aa" then .status 500 else .success "Aruba"

/-! Helper lemmas. -/

/-- The semaphore counter plus the number of permit holders is constant
along every run: each `acquire` moves one unit from the counter to the
holders and each block exit moves it back, on the error path too. -/
lemma gate_invariant {concur_req n : Nat} {s : GState}
    (h : Reachable concur_req n s) : s.avail + holders s = concur_req := by
  induction h with
  | init =>
      have h0 : holders (initState concur_req n) = 0 :=
        Multiset.countP_eq_zero.mpr fun p hp => by
          rw [Multiset.eq_of_mem_replicate hp]; simp [Phase.holding]
      simp [initState] at h0 ⊢
      simp [h0]
  | step _ hstep ih =>
      cases hstep <;>
        simp only [holders, Multiset.countP_cons, Phase.holding] at ih ⊢ <;>
        simp at ih ⊢ <;> omega

/-- `str.lower` distributes over concatenation. -/
lemma lowerStr_append : ∀ s t : String, lowerStr (s ++ t) = lowerStr s ++ lowerStr t
  | ⟨ds⟩, ⟨dt⟩ => congrArg String.mk (List.map_append Char.toLower ds dt)

/-- Inserting into the sorted rest permutes consing onto it. -/
lemma insertSorted_perm (a : String) : ∀ l : List String, (insertSorted a l).Perm (a :: l)
  | [] => List.Perm.refl _
  | b :: l => by
      by_cases hab : strLe a b = true
      · simp [insertSorted, hab]
      · simp only [insertSorted, hab, if_false]
        exact ((insertSorted_perm a l).cons b).trans (List.Perm.swap a b l)

/-- `sorted(cc_list)` is a permutation of `cc_list`. -/
lemma sortKeys_perm : ∀ l : List String, (sortKeys l).Perm l
  | [] => List.Perm.refl _
  | a :: l => (insertSorted_perm a (sortKeys l)).trans ((sortKeys_perm l).cons a)

/-- Sorting keeps the number of keys, multiplicity included. -/
lemma sortKeys_length (l : List String) : (sortKeys l).length = l.length :=
  (sortKeys_perm l).length_eq

/-- One task list entry per key occurrence. -/
lemma supervisorTasks_length (client : String → HttpReply)
    (cc_list : List String) (base_url : String) :
    (supervisorTasks client cc_list base_url).length = cc_list.length := by
  simp [supervisorTasks, sortKeys_length]

/-- `counter[status] += 1` grows the total by one. -/
lemma Counts.total_incr (c : Counts) (st : DownloadStatus) :
    (c.incr st).total = c.total + 1 := by
  cases st <;> simp [Counts.incr, Counts.total] <;> omega

/-- When both fetch stages of a key succeed, its completion is OK. -/
lemma download_one_ok (client : String → HttpReply) (base_url cc : String)
    (h1 : ∃ b, client (flagUrl base_url cc) = .success b)
    (h2 : ∃ b, client (metadataUrl base_url cc) = .success b) :
    (download_one client cc base_url).map (·.status) = .ok .OK := by
  obtain ⟨b1, hb1⟩ := h1
  obtain ⟨b2, hb2⟩ := h2
  simp [download_one, get_flag, get_country, hb1, hb2, Except.map]

/-- Draining a list of all-OK completions with no pending error and no
interrupt counts them all as OK. -/
lemma drainFrom_all_ok :
    ∀ (order : List Completion) (i : Nat) (counter : Counts),
      (∀ c ∈ order, c = .ok .OK) →
      drainFrom none i order none counter =
        .ok ⟨counter.ok + order.length, counter.notFound, counter.error⟩
  | [], _, counter, _ => by simp [drainFrom]
  | c :: rest, i, counter, h => by
      have hc : c = .ok .OK := h c (by simp)
      subst hc
      rw [drainFrom, if_neg (by simp)]
      rw [drainFrom_all_ok rest (i + 1) _ fun c hc => h c (by simp [hc])]
      simp [Counts.incr]
      omega

/-- Draining only normal completions (no pending error, no interrupt)
returns, and tallies exactly the per-outcome occurrence counts. -/
lemma drainFrom_normal :
    ∀ (order : List Completion) (i : Nat) (counter : Counts),
      (∀ c ∈ order, isNormal c = true) →
      drainFrom none i order none counter =
        .ok ⟨counter.ok + countOK order, counter.notFound + countNF order,
             counter.error + countERR order⟩
  | [], _, counter, _ => by simp [drainFrom, countOK, countNF, countERR]
  | c :: rest, i, counter, h => by
      have hc := h c (by simp)
      match c with
      | .error e => simp [isNormal] at hc
      | .ok st =>
          rw [drainFrom, if_neg (by simp)]
          show drainFrom none (i + 1) rest none (counter.incr st) = _
          rw [drainFrom_normal rest (i + 1) _ fun c hc => h c (by simp [hc])]
          cases st <;>
            simp [Counts.incr, countOK, countNF, countERR, List.countP_cons] <;>
            omega

/-- If some drained completion raised, the drain loop itself raises (the
KeyError of the message format, or the unhandled transport error) and no
counter is returned. -/
lemma drainFrom_abnormal :
    ∀ (order : List Completion) (i : Nat) (errVar : Option HttpxError)
      (counter : Counts) (c : Completion),
      c ∈ order → isNormal c = false →
      ∃ f, drainFrom none i order errVar counter = .error f
  | [], _, _, _, c, hc, _ => absurd hc (List.not_mem_nil c)
  | d :: rest, i, errVar, counter, c, hc, hnorm => by
      match d with
      | .error (.statusError code url) =>
          exact ⟨.keyErrorResp, by rw [drainFrom, if_neg (by simp)]⟩
      | .error (.transportError info) =>
          exact ⟨.unhandled info, by rw [drainFrom, if_neg (by simp)]⟩
      | .ok st =>
          have hcrest : c ∈ rest := by
            rcases List.mem_cons.mp hc with h | h
            · subst h; simp [isNormal] at hnorm
            · exact h
          obtain ⟨f, hf⟩ := drainFrom_abnormal rest (i + 1) errVar
            (counter.incr (if errVar.isSome then .ERROR else st)) c hcrest hnorm
          exact ⟨f, by rw [drainFrom, if_neg (by simp)]; exact hf⟩

/-- With an interrupt delivered at the k-th drain and all earlier
completions normal, the loop breaks at k and returns a counter that grew
by exactly the number of completions drained before the interrupt. -/
lemma drainFrom_intr (k : Nat) :
    ∀ (order : List Completion) (i : Nat) (counter : Counts),
      i ≤ k → k - i ≤ order.length →
      (∀ c ∈ order.take (k - i), isNormal c = true) →
      ∃ counts, drainFrom (some k) i order none counter = .ok counts ∧
        counts.total = counter.total + (k - i)
  | [], i, counter, _, hlen, _ => by
      simp at hlen
      exact ⟨counter, by simp [drainFrom], by omega⟩
  | c :: rest, i, counter, hik, hlen, hnorm => by
      by_cases hi : i = k
      · subst hi
        refine ⟨counter, ?_, by omega⟩
        match c with
        | .ok st => rw [drainFrom, if_pos rfl]
        | .error (.statusError code url) => rw [drainFrom, if_pos rfl]
        | .error (.transportError info) => rw [drainFrom, if_pos rfl]
      · have htake : k - i = (k - (i + 1)) + 1 := by omega
        have hc : isNormal c = true := by
          apply hnorm c
          rw [htake, List.take_succ_cons]
          exact List.mem_cons_self c _
        match c with
        | .error e => simp [isNormal] at hc
        | .ok st =>
            obtain ⟨counts, heq, htot⟩ := drainFrom_intr k rest (i + 1)
              (counter.incr st) (by omega)
              (by simp at hlen; omega)
              (fun c' hc' => hnorm c'
                (by rw [htake, List.take_succ_cons]; exact List.mem_cons_of_mem _ hc'))
            refine ⟨counts, ?_, ?_⟩
            · rw [drainFrom, if_neg (by simp; omega)]
              exact heq
            · rw [htot, Counts.total_incr]; omega

/-- In a run where every remote call of every listed key succeeds, every
entry of the task list completes with OK. -/
lemma supervisorTasks_all_ok (client : String → HttpReply) (base_url : String)
    (cc_list : List String)
    (hflag : ∀ cc ∈ cc_list, ∃ b, client (flagUrl base_url cc) = .success b)
    (hmeta : ∀ cc ∈ cc_list, ∃ b, client (metadataUrl base_url cc) = .success b) :
    ∀ c ∈ supervisorTasks client cc_list base_url, c = .ok .OK := by
  intro c hcmem
  simp only [supervisorTasks, List.mem_map] at hcmem
  obtain ⟨cc, hcc, hc⟩ := hcmem
  have hcc' : cc ∈ cc_list := (sortKeys_perm cc_list).mem_iff.mp hcc
  rw [← hc]
  exact download_one_ok client base_url cc (hflag cc hcc') (hmeta cc hcc')

/-- The counter the drain loop hands back (or its absence, when the loop
raises) does not depend on the completion order. -/
lemma returnedCounts_perm (l1 l2 : List Completion) (h : l1.Perm l2) :
    returnedCounts (drainFrom none 0 l1 none Counts.zero) =
      returnedCounts (drainFrom none 0 l2 none Counts.zero) := by
  by_cases hall : ∀ c ∈ l1, isNormal c = true
  · have hall2 : ∀ c ∈ l2, isNormal c = true := fun c hc => hall c (h.mem_iff.mpr hc)
    rw [drainFrom_normal l1 0 _ hall, drainFrom_normal l2 0 _ hall2]
    have e1 : countOK l1 = countOK l2 := h.countP_eq _
    have e2 : countNF l1 = countNF l2 := h.countP_eq _
    have e3 : countERR l1 = countERR l2 := h.countP_eq _
    rw [e1, e2, e3]
  · push_neg at hall
    obtain ⟨c, hcmem, hcnorm⟩ := hall
    have hcfalse : isNormal c = false := by
      cases hval : isNormal c
      · rfl
      · exact absurd hval hcnorm
    obtain ⟨f1, hf1⟩ := drainFrom_abnormal l1 0 none Counts.zero c hcmem hcfalse
    obtain ⟨f2, hf2⟩ :=
      drainFrom_abnormal l2 0 none Counts.zero c (h.mem_iff.mp hcmem) hcfalse
    rw [hf1, hf2]
    rfl

/-- With every remote call succeeding, the supervisor returns the all-OK
counter for any admissible completion order. -/
lemma supervisor_all_ok (client : String → HttpReply) (base_url : String)
    (cc_list : List String) (concur_req : Nat) (order : List Completion)
    (hflag : ∀ cc ∈ cc_list, ∃ b, client (flagUrl base_url cc) = .success b)
    (hmeta : ∀ cc ∈ cc_list, ∃ b, client (metadataUrl base_url cc) = .success b)
    (horder : order.Perm (supervisorTasks client cc_list base_url)) :
    supervisor concur_req order none = .ok ⟨cc_list.length, 0, 0⟩ := by
  have htasks := supervisorTasks_all_ok client base_url cc_list hflag hmeta
  have horder_ok : ∀ c ∈ order, c = .ok .OK := fun c hc =>
    htasks c (horder.mem_iff.mp hc)
  have hlen : order.length = cc_list.length := by
    rw [horder.length_eq, supervisorTasks_length]
  show drainFrom none 0 order none Counts.zero = _
  rw [drainFrom_all_ok order 0 Counts.zero horder_ok]
  simp [Counts.zero, hlen]

/-! The claims. -/

/-- C1: code bug. A fetch stage that raises a non-404 status error
(here HTTP 500 on every GET, key bf) is indeed re-raised by the task to
the supervisor, but the supervisor run then aborts with the KeyError
raised while formatting the drain-loop message (line 117 passes the
keyword `res`, the template of line 116 names the field `resp`) instead
of classifying the key as ERROR, incrementing the ERROR count and
continuing to drain. Transport errors are worse still: only
`httpx.HTTPStatusError` is caught, so they propagate uncaught. -/
theorem c1_non404_aborts_run :
    download_one client500 "bf" "http://flags" =
      .error (.statusError 500 (flagUrl "http://flags" "bf")) ∧
    supervisor 5 (supervisorTasks client500 ["bf"] "http://flags") none =
      .error .keyErrorResp :=
  ⟨rfl, rfl⟩

/-- C2: code bug. In a run where key aa raises a 500 status error and
key bb completes normally with OK, the claim expects the OK of bb to be
counted as OK; instead the supervisor aborts with the message-format
KeyError while draining the aa error, so the OK of bb is never counted
at all (and the `error` variable, initialized once before the loop at
line 111 and never reset between iterations, would have reclassified bb
as ERROR even if the formatting were fixed). -/
theorem c2_ok_after_error_not_counted :
    supervisorTasks mixedClient ["bb", "aa"] "http://flags" =
      [.error (.statusError 500 (flagUrl "http://flags" "aa")), .ok .OK] ∧
    supervisor 5 (supervisorTasks mixedClient ["bb", "aa"] "http://flags") none =
      .error .keyErrorResp := by
  constructor
  · decide
  · decide

/-- C3: a 404 status error in the first or the second fetch stage is
classified by the task itself as NOT_FOUND, the message records the
failing URL, no persistence call is made, and the task returns normally
(no exception reaches the supervisor). -/
theorem c3_not_found_classified (client : String → HttpReply) (base_url cc : String) :
    (client (flagUrl base_url cc) = .status 404 →
      download_one client cc base_url =
        .ok ⟨.NOT_FOUND, "not found: " ++ flagUrl base_url cc, none⟩) ∧
    (∀ body, client (flagUrl base_url cc) = .success body →
      client (metadataUrl base_url cc) = .status 404 →
      download_one client cc base_url =
        .ok ⟨.NOT_FOUND, "not found: " ++ metadataUrl base_url cc, none⟩) := by
  constructor
  · intro h
    simp [download_one, get_flag, h]
  · intro body h1 h2
    simp [download_one, get_flag, get_country, h1, h2]

/-- C3 witness: on a remote answering 404 everywhere, key bf classifies
as NOT_FOUND with the flag URL in the message, nothing saved, no
exception. -/
theorem c3_witness :
    download_one client404 "bf" "http://flags" =
      .ok ⟨.NOT_FOUND, "not found: " ++ flagUrl "http://flags" "bf", none⟩ :=
  (c3_not_found_classified client404 "http://flags" "bf").1 rfl

/-- C4: for a non-empty key list on which every remote call succeeds,
the supervisor returns a counter whose values sum to the number of keys,
each key contributing exactly one OK outcome. -/
theorem c4_no_failures_total (client : String → HttpReply) (base_url : String)
    (cc_list : List String) (concur_req : Nat) (order : List Completion)
    (hne : cc_list ≠ [])
    (hflag : ∀ cc ∈ cc_list, ∃ b, client (flagUrl base_url cc) = .success b)
    (hmeta : ∀ cc ∈ cc_list, ∃ b, client (metadataUrl base_url cc) = .success b)
    (horder : order.Perm (supervisorTasks client cc_list base_url)) :
    supervisor concur_req order none = .ok ⟨cc_list.length, 0, 0⟩ ∧
    Counts.total ⟨cc_list.length, 0, 0⟩ = cc_list.length := by
  refine ⟨supervisor_all_ok client base_url cc_list concur_req order hflag hmeta horder, ?_⟩
  simp [Counts.total]

/-- C4 witness: two keys, every call succeeding, capacity 2, submission
order as completion order: counter is two OK and totals 2. -/
theorem c4_witness :
    supervisor 2 (supervisorTasks clientGood ["bf", "gh"] "http://flags") none =
      .ok ⟨2, 0, 0⟩ ∧
    Counts.total ⟨2, 0, 0⟩ = 2 :=
  c4_no_failures_total clientGood "http://flags" ["bf", "gh"] 2
    (supervisorTasks clientGood ["bf", "gh"] "http://flags")
    (List.cons_ne_nil _ _)
    (fun _ _ => ⟨"Aruba", rfl⟩)
    (fun _ _ => ⟨"Aruba", rfl⟩)
    (List.Perm.refl _)

/-- C5: for every capacity of at least one and every number of tasks, in
every state a run can reach, the number of simultaneous holders of the
admission gate never exceeds the capacity. -/
theorem c5_admission_bound (concur_req n : Nat) (hC : 1 ≤ concur_req)
    (s : GState) (hs : Reachable concur_req n s) :
    holders s ≤ concur_req := by
  have h := gate_invariant hs
  omega

/-- C5 witness: with capacity one and one task, the state reached right
after the first acquire respects the bound. -/
theorem c5_witness : holders ⟨0, Phase.fetching1 ::ₘ 0⟩ ≤ 1 := by
  have h1 : initState 1 1 = (⟨1, Phase.start ::ₘ 0⟩ : GState) := rfl
  have h0 : Reachable 1 1 (⟨1, Phase.start ::ₘ 0⟩ : GState) := h1 ▸ Reachable.init
  exact c5_admission_bound 1 1 (by decide) _ (h0.step (Step.acquire1 0 0))

/-- C6 counterexample: with an uppercase base location the code
lowercases the base as well, so the produced payload location differs
from the claimed one in which only the key component is lowercased. -/
theorem c6_counterexample :
    flagUrl "HTTP://Flags.example" "BF" ≠ flagUrlSpec "HTTP://Flags.example" "BF" := by
  decide

/-- C6 (amended): both fetch locations are obtained by lowercasing the
entire interpolated string, base included; whenever the base is
unchanged by lowercasing, the targets are exactly
base/<lowercased key>/<lowercased key>.gif and
base/<lowercased key>/metadata.json. -/
theorem c6_amended_locations (base_url cc : String)
    (hbase : lowerStr base_url = base_url) :
    flagUrl base_url cc = flagUrlSpec base_url cc ∧
    metadataUrl base_url cc = metadataUrlSpec base_url cc := by
  have hslash : lowerStr "/" = "/" := rfl
  have hgif : lowerStr ".gif" = ".gif" := rfl
  have hjson : lowerStr "/metadata.json" = "/metadata.json" := rfl
  constructor <;>
    simp only [flagUrl, flagUrlSpec, metadataUrl, metadataUrlSpec, lowerStr_append,
      hbase, hslash, hgif, hjson]

/-- C6 witness: with an all-lowercase base the amended location shapes
hold at a concrete uppercase key. -/
theorem c6_witness :
    flagUrl "http://flags" "BF" = flagUrlSpec "http://flags" "BF" ∧
    metadataUrl "http://flags" "BF" = metadataUrlSpec "http://flags" "BF" :=
  c6_amended_locations "http://flags" "BF" rfl

/-- C7: a user interrupt delivered while the supervisor drains the k-th
completion (all earlier completions having returned normally) stops the
draining: the supervisor returns instead of the interrupt propagating,
the counter reflects exactly the k completions drained before the
interrupt, and its total is at most the number of keys. -/
theorem c7_interrupt_partial (client : String → HttpReply) (base_url : String)
    (cc_list : List String) (concur_req k : Nat) (order : List Completion)
    (horder : order.Perm (supervisorTasks client cc_list base_url))
    (hk : k < order.length)
    (hnorm : ∀ c ∈ order.take k, isNormal c = true) :
    ∃ counts, supervisor concur_req order (some k) = .ok counts ∧
      counts.total = k ∧ k ≤ cc_list.length := by
  obtain ⟨counts, heq, htot⟩ := drainFrom_intr k order 0 Counts.zero (Nat.zero_le k)
    (by omega) (by simpa using hnorm)
  refine ⟨counts, heq, ?_, ?_⟩
  · rw [htot]
    simp [Counts.total, Counts.zero]
  · have hlen := horder.length_eq
    rw [supervisorTasks_length] at hlen
    omega

/-- C7 witness: two all-success keys, interrupt while draining the
second completion: one OK is counted, the total is one, one at most two
keys. -/
theorem c7_witness :
    ∃ counts,
      supervisor 2 (supervisorTasks clientGood ["bf", "gh"] "http://flags") (some 1) =
        .ok counts ∧
      counts.total = 1 ∧ 1 ≤ (["bf", "gh"] : List String).length :=
  c7_interrupt_partial clientGood "http://flags" ["bf", "gh"] 2 1
    (supervisorTasks clientGood ["bf", "gh"] "http://flags")
    (List.Perm.refl _) (by decide) (by decide)

/-- C8: with the key list and the per-key remote behaviour fixed, the
counter handed back to the caller (or the absence of one, when the run
aborts) is the same for any two capacities within one and the key count:
capacity only changes the completion order, and the returned per-outcome
totals are order-independent. -/
theorem c8_capacity_irrelevant (client : String → HttpReply) (base_url : String)
    (cc_list : List String) (cr1 cr2 : Nat) (order1 order2 : List Completion)
    (hcr1 : 1 ≤ cr1 ∧ cr1 ≤ cc_list.length)
    (hcr2 : 1 ≤ cr2 ∧ cr2 ≤ cc_list.length)
    (h1 : order1.Perm (supervisorTasks client cc_list base_url))
    (h2 : order2.Perm (supervisorTasks client cc_list base_url)) :
    returnedCounts (supervisor cr1 order1 none) =
      returnedCounts (supervisor cr2 order2 none) :=
  returnedCounts_perm order1 order2 (h1.trans h2.symm)

/-- C8 witness: the all-success two-key run returns the same counter
under capacity one with one completion order and capacity two with the
reversed order. -/
theorem c8_witness :
    returnedCounts
        (supervisor 1 (supervisorTasks clientGood ["bf", "gh"] "http://flags") none) =
      returnedCounts
        (supervisor 2 (supervisorTasks clientGood ["bf", "gh"] "http://flags").reverse none) :=
  c8_capacity_irrelevant clientGood "http://flags" ["bf", "gh"] 1 2
    (supervisorTasks clientGood ["bf", "gh"] "http://flags")
    (supervisorTasks clientGood ["bf", "gh"] "http://flags").reverse
    (by decide) (by decide) (List.Perm.refl _) (List.reverse_perm _)

/-- C9: along every run, the semaphore counter plus the number of
current permit holders is constantly the configured capacity — every
permit taken for a fetch stage is given back when the stage ends, on the
exception path too — and once every task is done the available capacity
is back to the configured value. -/
theorem c9_no_leak (concur_req n : Nat) (s : GState)
    (hs : Reachable concur_req n s) :
    s.avail + holders s = concur_req ∧
    ((∀ p ∈ s.tasks, p = Phase.done) → s.avail = concur_req) := by
  have hinv := gate_invariant hs
  refine ⟨hinv, fun hdone => ?_⟩
  have hzero : holders s = 0 :=
    Multiset.countP_eq_zero.mpr fun p hp => by
      rw [hdone p hp]; simp [Phase.holding]
  omega

/-- C9 witness: capacity two, one task that acquires and then fails its
first fetch: in the resulting all-done state the counter is back at
two. -/
theorem c9_witness :
    GState.avail ⟨2, Phase.done ::ₘ 0⟩ + holders ⟨2, Phase.done ::ₘ 0⟩ = 2 ∧
    GState.avail ⟨2, Phase.done ::ₘ 0⟩ = 2 := by
  have h1 : initState 2 1 = (⟨2, Phase.start ::ₘ 0⟩ : GState) := rfl
  have h0 : Reachable 2 1 (⟨2, Phase.start ::ₘ 0⟩ : GState) := h1 ▸ Reachable.init
  have hreach : Reachable 2 1 ⟨2, Phase.done ::ₘ 0⟩ :=
    (h0.step (Step.acquire1 1 0)).step (Step.finish1err 1 0)
  have h := c9_no_leak 2 1 _ hreach
  refine ⟨h.1, h.2 fun p hp => ?_⟩
  have hp' : p ∈ Phase.done ::ₘ (0 : Multiset Phase) := hp
  rcases Multiset.mem_cons.mp hp' with h | h
  · exact h
  · exact absurd h (Multiset.not_mem_zero p)

/-- C10: the supervisor launches one task per key occurrence, not per
distinct key — the task list has exactly the length of the input list —
and with every remote call succeeding the returned counter totals that
length counting multiplicity. -/
theorem c10_duplicates (client : String → HttpReply) (base_url : String)
    (cc_list : List String) (concur_req : Nat) (order : List Completion)
    (hflag : ∀ cc ∈ cc_list, ∃ b, client (flagUrl base_url cc) = .success b)
    (hmeta : ∀ cc ∈ cc_list, ∃ b, client (metadataUrl base_url cc) = .success b)
    (horder : order.Perm (supervisorTasks client cc_list base_url)) :
    (supervisorTasks client cc_list base_url).length = cc_list.length ∧
    supervisor concur_req order none = .ok ⟨cc_list.length, 0, 0⟩ :=
  ⟨supervisorTasks_length client cc_list base_url,
   supervisor_all_ok client base_url cc_list concur_req order hflag hmeta horder⟩

/-- C10 witness: the duplicated key list bf, bf yields two tasks and the
counter totals two. -/
theorem c10_witness :
    (supervisorTasks clientGood ["bf", "bf"] "http://flags").length = 2 ∧
    supervisor 2 (supervisorTasks clientGood ["bf", "bf"] "http://flags") none =
      .ok ⟨2, 0, 0⟩ :=
  c10_duplicates clientGood "http://flags" ["bf", "bf"] 2
    (supervisorTasks clientGood ["bf", "bf"] "http://flags")
    (fun _ _ => ⟨"Aruba", rfl⟩)
    (fun _ _ => ⟨"Aruba", rfl⟩)
    (List.Perm.refl _)

end GetFlags
